import Mathlib

/-!
Verification of the playd / playslave player core against its specification.

The definitions below are a shallow embedding of the repository's source:

* the top-level player state machine of src/player.cpp (states, the
  variadic state gate, the command handlers, and the command dispatch
  table from main_loop);
* the time conversion helpers of src/src/audio/audio_source.cpp
  (AudioSource::SamplesFromMicros and AudioSource::MicrosFromSamples)
  together with SoXAudioSource::Seek and PipeAudio::Seek / Position;
* the SDL audio callback of src/src/audio/audio_sink.cpp;
* the PipeAudio update / transfer / decode-if-empty tick and the TIME
  announcement throttling of src/src/audio/audio.cpp.

Machine integers are modelled as Nat with explicit reduction modulo 2^64
where C++ uint64_t arithmetic can overflow.  Fallible operations return
Option or Except.  Std maps keyed by pointers are modelled as association
lists keyed by Nat identifiers.
-/

namespace Playd

/-! ## Player state machine (src/player.cpp) -/

/-- Player states, mirroring enum state {S_VOID, S_EJCT, S_STOP, S_PLAY,
S_QUIT} of the old player. -/
inductive PState
  | S_VOID
  | S_EJCT
  | S_STOP
  | S_PLAY
  | S_QUIT
deriving DecidableEq, Repr

open PState

/-- Modelled from the spec: the audio engine object of the old player
(declared in audio.h, which is not in the source tree).  Only what the
player handlers touch is modelled: a playing flag (start/stop) and a
position in microseconds (seek_usec / usec).  Per the spec, start
unpauses playback, stop pauses it, and seek repositions the stream. -/
structure AudioObj where
  playing : Bool
  posUsec : Nat
deriving DecidableEq, Repr

/-- The mutable player record of src/player.cpp: current state cstate, the
owned audio unique_ptr (None models nullptr), and ptime, the position at
the previous loop iteration. -/
structure Player where
  cstate : PState
  au : Option AudioObj
  ptime : Nat
deriving DecidableEq, Repr

/-- player::player (src/player.cpp:73-78): cstate = S_EJCT, au = nullptr. -/
def initPlayer : Player :=
  { cstate := S_EJCT, au := none, ptime := 0 }

/-- player::gate_state (src/player.cpp:233-250): true iff the current
state is among the listed states. -/
def gate_state (p : Player) (allowed : List PState) : Bool :=
  allowed.contains p.cstate

/-- audio::start, modelled from the spec: unpause the device. -/
def audioStart (a : AudioObj) : AudioObj :=
  { a with playing := true }

/-- audio::stop, modelled from the spec: pause the device. -/
def audioStop (a : AudioObj) : AudioObj :=
  { a with playing := false }

/-- audio::seek_usec, modelled from the spec: reposition to the given
microsecond position. -/
def audioSeekUsec (t : Nat) (a : AudioObj) : AudioObj :=
  { a with posUsec := t }

/-- player::cmd_ejct (src/player.cpp:114-124).  Gate {S_STOP, S_PLAY}; on
success drop the audio, set state S_EJCT, zero ptime. -/
def cmd_ejct (p : Player) : Player × Bool :=
  let valid := gate_state p [S_STOP, S_PLAY]
  if valid then
    ({ cstate := S_EJCT, au := none, ptime := 0 }, true)
  else (p, false)

/-- player::cmd_play (src/player.cpp:126-135).  Gate {S_STOP} plus a
null-pointer check; on success start the audio and set state S_PLAY. -/
def cmd_play (p : Player) : Player × Bool :=
  let valid := gate_state p [S_STOP] && p.au.isSome
  if valid then
    ({ p with au := p.au.map audioStart, cstate := S_PLAY }, true)
  else (p, false)

/-- player::cmd_stop (src/player.cpp:146-154).  Gate {S_PLAY}; on success
stop the audio.  Note: the source never calls set_state here, so cstate
is left untouched. -/
def cmd_stop (p : Player) : Player × Bool :=
  let valid := gate_state p [S_PLAY]
  if valid then
    ({ p with au := p.au.map audioStop }, true)
  else (p, false)

/-- player::cmd_quit (src/player.cpp:137-144): cmd_ejct, then state S_QUIT;
always valid. -/
def cmd_quit (p : Player) : Player × Bool :=
  let p1 := (cmd_ejct p).1
  ({ p1 with cstate := S_QUIT }, true)

/-- player::cmd_load (src/player.cpp:156-169).  The outcome of
new audio(filename, device) is passed in: some a if construction
succeeded, none if it threw.  On success the new audio is installed and
state becomes S_STOP; on failure cmd_ejct runs.  Always valid. -/
def cmd_load (p : Player) (loaded : Option AudioObj) : Player × Bool :=
  match loaded with
  | some a => ({ p with au := some a, cstate := S_STOP }, true)
  | none => ((cmd_ejct p).1, true)

/-- player::cmd_seek (src/player.cpp:171-199).  The istringstream split of
time_str is abstracted as the pre-split pair (t, rest); the unit scaling
multiplies by USECS_IN_SEC (1000000, from the absent constants.h) when the
unit is "s" or "sec".  Gate {S_PLAY, S_STOP}; on success: remember the
current state, cmd_stop, seek the audio, and cmd_play again if the
remembered state was S_PLAY. -/
def cmd_seek (p : Player) (t : Nat) (rest : String) : Player × Bool :=
  let time := if rest = "s" || rest = "sec" then t * 1000000 else t
  let valid := gate_state p [S_PLAY, S_STOP]
  if valid then
    let current := p.cstate
    let p1 := (cmd_stop p).1
    let p2 := { p1 with au := p1.au.map (audioSeekUsec time) }
    let p3 := if current = S_PLAY then (cmd_play p2).1 else p2
    (p3, true)
  else (p, false)

/-- The PLAYER_CMDS dispatch table of player::main_loop
(src/player.cpp:86-95).  Each verb maps to the handler the lambda binds;
in particular the "seek" entry calls cmd_load(words[1]), not cmd_seek.
Unknown verbs are handled outside the table (modelled as no-op, invalid).
The loaded argument is the outcome of any audio construction the handler
performs; seekArg is the pre-split seek time argument. -/
def execCmd (p : Player) (verb : String) (loaded : Option AudioObj)
    (_seekArg : Nat × String) : Player × Bool :=
  if verb = "play" then cmd_play p
  else if verb = "stop" then cmd_stop p
  else if verb = "ejct" then cmd_ejct p
  else if verb = "quit" then cmd_quit p
  else if verb = "load" then cmd_load p loaded
  else if verb = "seek" then cmd_load p loaded
  else (p, false)

/-- Modelled from the spec: cuppa's check_commands (cuppa/cmd.c is not in
the source tree) replies with ACK WHAT when a handler reports the command
invalid, and with ACK OK when it reports it valid. -/
inductive AckCode
  | OKAY
  | WHAT
deriving DecidableEq, Repr

/-- Modelled from the spec: the acknowledgement check_commands sends for a
handler outcome. -/
def ackOf (valid : Bool) : AckCode :=
  if valid then AckCode.OKAY else AckCode.WHAT

/-! ## Time conversions (src/src/audio/audio_source.cpp) -/

/-- The uint64_t modulus. -/
def U64 : Nat := 2 ^ 64

/-- AudioSource::SamplesFromMicros (src/src/audio/audio_source.cpp:33-40):
(micros * rate) / 1000000 in uint64_t arithmetic. -/
def SamplesFromMicros (rate micros : Nat) : Nat :=
  ((micros * rate) % U64) / 1000000

/-- AudioSource::MicrosFromSamples (src/src/audio/audio_source.cpp:42-47):
(samples * 1000000) / rate in uint64_t arithmetic. -/
def MicrosFromSamples (rate samples : Nat) : Nat :=
  ((samples * 1000000) % U64) / rate

/-- SoXAudioSource::Seek (src/src/audio/audio_source.cpp:106-137).  The
position argument is converted with SamplesFromMicros (even though the
caller already passes samples), multiplied by the channel count for SoX,
bounds-checked against the signal length, and the converted sample count
is returned.  sox_seek itself is assumed to succeed when the bound check
passes. -/
def soxSeek (rate channels fileLen position : Nat) : Except String Nat :=
  let samples := SamplesFromMicros rate position
  let soxSamples := samples * channels
  if fileLen < soxSamples then Except.error "seek failed"
  else Except.ok samples

/-- PipeAudio::Seek (src/src/audio/audio.cpp:131-146), restricted to the
new sink position it establishes: in_samples = SamplesFromMicros(position),
out_samples = src->Seek(in_samples), sink->SetPosition(out_samples). -/
def pipeSeekPosition (rate channels fileLen micros : Nat) :
    Except String Nat :=
  let inSamples := SamplesFromMicros rate micros
  soxSeek rate channels fileLen inSamples

/-- PipeAudio::Position (src/src/audio/audio.cpp:123-129):
MicrosFromSamples applied to the sink position. -/
def pipePosition (rate sinkSamples : Nat) : Nat :=
  MicrosFromSamples rate sinkSamples

/-- The position PipeAudio::Position reports after PipeAudio::Seek, when
the seek succeeds. -/
def positionAfterSeek (rate channels fileLen micros : Nat) : Option Nat :=
  match pipeSeekPosition rate channels fileLen micros with
  | Except.ok s => some (pipePosition rate s)
  | Except.error _ => none

/-! ## Audio sink and the SDL callback (src/src/audio/audio_sink.cpp) -/

/-- Audio::State (src/src/audio/audio.hpp:42-47). -/
inductive AState
  | NONE
  | STOPPED
  | PLAYING
  | AT_END
deriving DecidableEq, Repr

/-- The SdlAudioSink fields the claims touch: the playback state, the
source_out flag, position_sample_count, the ring buffer contents and
bytes_per_sample.  The ring buffer (ringbuffer.hpp is not in the source
tree) is modelled from the spec as the list of pending bytes of a
single-producer/single-consumer ring accounted in samples: read capacity
is the pending byte count divided by bytes_per_sample, write capacity is
the free sample count out of 2^16, reads take from the front and writes
append at the back. -/
structure SinkState where
  state : AState
  sourceOut : Bool
  position : Nat
  ring : List Nat
  bps : Nat
deriving DecidableEq, Repr

/-- RingBuffer::ReadCapacity, modelled from the spec: pending samples. -/
def readCapacity (s : SinkState) : Nat :=
  s.ring.length / s.bps

/-- SdlAudioSink::RINGBUF_POWER = 16; ring capacity in samples. -/
def ringCapacity : Nat := 2 ^ 16

/-- RingBuffer::WriteCapacity, modelled from the spec: free samples. -/
def writeCapacity (s : SinkState) : Nat :=
  ringCapacity - readCapacity s

/-- SdlAudioSink::SourceOut (src/src/audio/audio_sink.cpp:132-138). -/
def sinkSourceOut (s : SinkState) : SinkState :=
  { s with sourceOut := true }

/-- SdlAudioSink::Callback (src/src/audio/audio_sink.cpp:192-236).
Returns the updated sink together with the bytes written into the output
buffer.  The buffer is first zeroed; if the state is not PLAYING nothing
else happens; if the ring is empty the state flips to AT_END exactly when
sourceOut holds; otherwise min(nbytes / bytes_per_sample, read capacity)
samples are read out of the ring into the buffer and the position grows
by the samples actually read. -/
def sdlCallback (s : SinkState) (nbytes : Nat) : SinkState × List Nat :=
  let zeroed := List.replicate nbytes 0
  if s.state ≠ AState.PLAYING then (s, zeroed)
  else
    let avail := readCapacity s
    if avail = 0 then
      (if s.sourceOut then { s with state := AState.AT_END } else s, zeroed)
    else
      let req := nbytes / s.bps
      let n := min req avail
      let out := s.ring.take (n * s.bps) ++ List.replicate (nbytes - n * s.bps) 0
      ({ s with ring := s.ring.drop (n * s.bps), position := s.position + n },
       out)

/-- SdlAudioSink::Transfer (src/src/audio/audio_sink.cpp:162-190).  Takes
the byte range still pending in the caller's frame; writes
min(samples, write capacity) whole samples into the ring and returns the
updated sink with the number of BYTES by which the caller's iterator is
advanced. -/
def sinkTransfer (s : SinkState) (bytes : List Nat) : SinkState × Nat :=
  if bytes.isEmpty then (s, 0)
  else
    let samples := bytes.length / s.bps
    let count := min samples (writeCapacity s)
    if count = 0 then (s, 0)
    else
      ({ s with ring := s.ring ++ bytes.take (count * s.bps) }, count * s.bps)

/-! ## PipeAudio update tick (src/src/audio/audio.cpp) -/

/-- AudioSource::DecodeState (src/src/audio/audio_source.hpp:39-46). -/
inductive DecodeState
  | WAITING_FOR_FRAME
  | DECODING
  | END_OF_FILE
deriving DecidableEq, Repr

/-- AudioSource::DecodeResult: the state after a decoding round and the
decoded bytes. -/
def DecodeResult : Type := DecodeState × List Nat

/-- The PipeAudio fields the update tick touches: the in-flight frame,
the frame iterator (as a byte offset from the frame's beginning), and the
sink. -/
structure PipeState where
  frame : List Nat
  cursor : Nat
  sink : SinkState
deriving DecidableEq, Repr

/-- PipeAudio::FrameFinished (src/src/audio/audio.cpp:208-211):
frame.end() <= frame_iterator. -/
def FrameFinished (p : PipeState) : Prop :=
  p.frame.length ≤ p.cursor

instance (p : PipeState) : Decidable (FrameFinished p) := by
  unfold FrameFinished
  infer_instance

/-- PipeAudio::ClearFrame (src/src/audio/audio.cpp:148-152). -/
def ClearFrame (p : PipeState) : PipeState :=
  { p with frame := [], cursor := 0 }

/-- PipeAudio::DecodeIfFrameEmpty (src/src/audio/audio.cpp:189-206),
with the source's decode outcome passed in.  If the frame is unfinished
nothing happens and more data is reported; otherwise the decoded bytes
replace the frame, the iterator is reset, and more data is reported
unless the decoder hit END_OF_FILE. -/
def DecodeIfFrameEmpty (p : PipeState) (d : DecodeResult) : PipeState × Bool :=
  if ¬ FrameFinished p then (p, true)
  else ({ p with frame := d.2, cursor := 0 }, d.1 ≠ DecodeState.END_OF_FILE)

/-- PipeAudio::TransferFrame (src/src/audio/audio.cpp:167-187): transfer
the pending part of the frame to the sink, advance the iterator by the
bytes accepted, and clear the frame once finished. -/
def TransferFrame (p : PipeState) : PipeState :=
  let t := sinkTransfer p.sink (p.frame.drop p.cursor)
  let p1 := { p with sink := t.1, cursor := p.cursor + t.2 }
  if FrameFinished p1 then ClearFrame p1 else p1

/-- PipeAudio::Update (src/src/audio/audio.cpp:154-165), with the
source's decode outcome passed in: decode if the frame is empty, report
source-out to the sink when the decoder is exhausted, transfer the frame
if unfinished, and return the sink state. -/
def pipeUpdate (p : PipeState) (d : DecodeResult) : PipeState × AState :=
  let dr := DecodeIfFrameEmpty p d
  let p1 := dr.1
  let p2 := if dr.2 then p1 else { p1 with sink := sinkSourceOut p1.sink }
  let p3 := if ¬ FrameFinished p2 then TransferFrame p2 else p2
  (p3, p3.sink.state)

/-! ## Response emission (src/src/audio/audio.cpp: Emit, CanAnnounceTime) -/

/-- Response codes (the subset Emit handles, plus a default). -/
inductive RCode
  | STATE
  | FILE
  | TIME
  | OTHER
deriving DecidableEq, Repr

/-- A formatted response line: code plus arguments. -/
structure Resp where
  code : RCode
  args : List String
deriving DecidableEq, Repr

/-- The last_times map of PipeAudio (src/src/audio/audio.hpp:184),
keyed by ResponseSink identity (modelled as Nat), valued by the last
announced whole-second. -/
abbrev TimeMap : Type := List (Nat × Nat)

/-- Lookup of a listener's recorded whole-second in last_times. -/
def lookupSec (k : Nat) : TimeMap → Option Nat
  | [] => none
  | (k1, v) :: rest => if k1 = k then some v else lookupSec k rest

/-- Removal of a listener's entry (std::map::erase). -/
def eraseSec (k : Nat) : TimeMap → TimeMap
  | [] => []
  | (k1, v) :: rest => if k1 = k then rest else (k1, v) :: eraseSec k rest

/-- PipeAudio::CanAnnounceTime (src/src/audio/audio.cpp:213-233):
secs = micros / 1000 / 1000; announce iff there is no record for the
listener or the record is strictly below secs; a positive answer erases
any stale record and inserts (listener, secs). -/
def CanAnnounceTime (micros k : Nat) (m : TimeMap) : Bool × TimeMap :=
  let secs := micros / 1000 / 1000
  match lookupSec k m with
  | none => (true, (k, secs) :: m)
  | some last =>
      if last < secs then (true, (k, secs) :: eraseSec k m)
      else (false, m)

/-- The TIME branch of PipeAudio::Emit (src/src/audio/audio.cpp:96-104):
can = 0 < id || CanAnnounceTime(micros, rs).  The short-circuit means a
unicast never consults or updates last_times. -/
def emitTime (id micros k : Nat) (m : TimeMap) : Bool × TimeMap :=
  if 0 < id then (true, m) else CanAnnounceTime micros k m

/-- One Emit(TIME) event: the connection id, the position in
microseconds, and the listener identity. -/
structure TimeEvent where
  id : Nat
  micros : Nat
  key : Nat

/-- The last_times map after a sequence of Emit(TIME) events (no seek,
hence no clearing, in between). -/
def processEvents (m : TimeMap) (evs : List TimeEvent) : TimeMap :=
  evs.foldl (fun acc e => (emitTime e.id e.micros e.key acc).2) m

/-- The STATE branch of PipeAudio::Emit (src/src/audio/audio.cpp:87-92):
the argument is "Playing" when the sink state is PLAYING and "Stopped"
otherwise. -/
def stateArg (st : AState) : String :=
  if st = AState.PLAYING then "Playing" else "Stopped"

/-- PipeAudio::Emit (src/src/audio/audio.cpp:78-110), given the sink
state, source path, current position and the TIME routing data.  Returns
the response sent (if any) and the updated last_times map.  A null
ResponseSink short-circuits everything. -/
def pipeEmit (code : RCode) (rsPresent : Bool) (id : Nat) (st : AState)
    (path : String) (micros k : Nat) (m : TimeMap) :
    Option Resp × TimeMap :=
  if ¬ rsPresent then (none, m)
  else
    match code with
    | RCode.STATE => (some ⟨RCode.STATE, [stateArg st]⟩, m)
    | RCode.FILE => (some ⟨RCode.FILE, [path]⟩, m)
    | RCode.TIME =>
        let can := emitTime id micros k m
        if can.1 then (some ⟨RCode.TIME, [toString micros]⟩, can.2)
        else (none, can.2)
    | RCode.OTHER => (none, m)

/-- NoAudio::Emit (src/src/audio/audio.cpp:42-50): with a present sink,
STATE yields the argument "Ejected"; every other code yields nothing. -/
def noAudioEmit (code : RCode) (rsPresent : Bool) : Option Resp :=
  if ¬ rsPresent then none
  else if code = RCode.STATE then some ⟨RCode.STATE, ["Ejected"]⟩
  else none

/-! ## Theorems -/

/-- Claim C1 (code bug): the PLAYER_CMDS dispatch table binds the seek
verb to cmd_load, so a seek command received while Playing does not
perform seek semantics.  Concretely, dispatching seek 5s from the
Playing state (where opening a file named "5s" fails) abandons the
loaded audio and moves the player to S_EJCT instead of stopping,
seeking and replaying with the state preserved. -/
theorem C1_seek_verb_bound_to_load :
    execCmd { cstate := PState.S_PLAY,
              au := some { playing := true, posUsec := 0 }, ptime := 0 }
        "seek" none (5, "s")
      = ({ cstate := PState.S_EJCT, au := none, ptime := 0 }, true) ∧
    (execCmd { cstate := PState.S_PLAY,
               au := some { playing := true, posUsec := 0 }, ptime := 0 }
        "seek" none (5, "s")).1.cstate ≠ PState.S_PLAY := by
  constructor
  · rfl
  · decide

/-- Claim C2 (code bug): after load and seek to 5000000 microseconds at
44100 Hz (stereo, 10-second file), the reported position is 220498
microseconds, far more than one sample period (22 microseconds) away
from 5000000: SoXAudioSource::Seek re-applies SamplesFromMicros to an
argument that PipeAudio::Seek already converted into samples. -/
theorem C2_seek_position_wrong :
    positionAfterSeek 44100 2 882000 5000000 = some 220498 ∧
    220498 + 1000000 / 44100 < 5000000 := by
  constructor
  · rfl
  · decide

/-- Claim C4 (code bug): cmd_stop on a Playing player pauses the audio
but never calls set_state, so the player state remains S_PLAY rather
than becoming S_STOP. -/
theorem C4_stop_leaves_state_play :
    cmd_stop { cstate := PState.S_PLAY,
               au := some { playing := true, posUsec := 0 }, ptime := 0 }
      = ({ cstate := PState.S_PLAY,
           au := some { playing := false, posUsec := 0 }, ptime := 0 }, true) ∧
    (cmd_stop { cstate := PState.S_PLAY,
                au := some { playing := true, posUsec := 0 }, ptime := 0 }
      ).1.cstate ≠ PState.S_STOP := by
  constructor
  · rfl
  · decide

/-- Claim C7 counterexample: at rate 44100 and sample count 1, both
conversions are within u64 range, yet
SamplesFromMicros(MicrosFromSamples(1)) = 0, not 1. -/
theorem C7_roundtrip_counterexample :
    1 * 1000000 < U64 ∧
    MicrosFromSamples 44100 1 * 44100 < U64 ∧
    SamplesFromMicros 44100 (MicrosFromSamples 44100 1) ≠ 1 := by
  refine ⟨by decide, ?_, ?_⟩
  · show 22 * 44100 < U64
    decide
  · show (0 : Nat) ≠ 1
    decide

/-- Claim C7 (amended): for every sample count s and positive sample
rate of at most 1000000 Hz such that both conversions stay within u64
range, samples_from_micros(micros_from_samples(s)) equals s when rate
divides s * 1000000 exactly and s - 1 otherwise; in particular the round
trip never exceeds s and loses at most one sample. -/
theorem C7_roundtrip_amended (rate s : Nat) (h0 : 0 < rate)
    (h1 : rate ≤ 1000000) (h2 : s * 1000000 < U64)
    (h3 : MicrosFromSamples rate s * rate < U64) :
    SamplesFromMicros rate (MicrosFromSamples rate s)
      = if s * 1000000 % rate = 0 then s else s - 1 := by
  have e1 : MicrosFromSamples rate s = s * 1000000 / rate := by
    unfold MicrosFromSamples
    rw [Nat.mod_eq_of_lt h2]
  rw [e1] at h3 ⊢
  unfold SamplesFromMicros
  rw [Nat.mod_eq_of_lt h3]
  have hdm := Nat.div_add_mod (s * 1000000) rate
  have hcomm := Nat.mul_comm (s * 1000000 / rate) rate
  by_cases ht : s * 1000000 % rate = 0
  · rw [if_pos ht]
    have hq : s * 1000000 / rate * rate = s * 1000000 := by omega
    rw [hq]
    exact Nat.mul_div_cancel s (by norm_num)
  · rw [if_neg ht]
    have htlt : s * 1000000 % rate < rate := Nat.mod_lt _ h0
    have hs1 : 1 ≤ s := by
      rcases Nat.eq_zero_or_pos s with h | h
      · exfalso
        apply ht
        rw [h]
        simp
      · exact h
    have key : s * 1000000 / rate * rate
        = (1000000 - s * 1000000 % rate) + 1000000 * (s - 1) := by
      omega
    rw [key, Nat.add_mul_div_left _ _ (show 0 < 1000000 by norm_num),
        Nat.div_eq_of_lt (by omega)]
    omega

/-- Witness for C7_roundtrip_amended at rate 44100 and s = 44100 (where
the rate divides s * 1000000, so the round trip is exact). -/
theorem C7_roundtrip_amended_witness :
    0 < 44100 ∧ 44100 ≤ 1000000 ∧ 44100 * 1000000 < U64 ∧
    MicrosFromSamples 44100 44100 * 44100 < U64 ∧
    SamplesFromMicros 44100 (MicrosFromSamples 44100 44100)
      = if 44100 * 1000000 % 44100 = 0 then 44100 else 44100 - 1 := by
  have h2 : (44100 : Nat) * 1000000 < U64 := by decide
  have h3 : MicrosFromSamples 44100 44100 * 44100 < U64 := by decide
  exact ⟨by decide, by decide, h2, h3,
    C7_roundtrip_amended 44100 44100 (by decide) (by decide) h2 h3⟩

/-- Claim C9 counterexample: a STATE emission while the sink is AT_END
carries the argument "Stopped", not "AtEnd". -/
theorem C9_state_atend_counterexample :
    (pipeEmit RCode.STATE true 0 AState.AT_END "a.wav" 0 0 []).1
      = some { code := RCode.STATE, args := ["Stopped"] } ∧
    "Stopped" ≠ "AtEnd" := by
  constructor
  · rfl
  · decide

/-- Claim C9 (amended): a STATE emission from the loaded pipe carries
"Playing" exactly when the sink state is PLAYING and "Stopped" in every
other sink state (including AT_END), and a STATE emission from the null
audio carries "Ejected". -/
theorem C9_state_emit_amended (st : AState) (path : String)
    (micros k : Nat) (m : TimeMap) :
    (pipeEmit RCode.STATE true 0 st path micros k m).1
      = some { code := RCode.STATE,
               args := [if st = AState.PLAYING then "Playing" else "Stopped"] } ∧
    noAudioEmit RCode.STATE true
      = some { code := RCode.STATE, args := ["Ejected"] } := by
  constructor
  · simp [pipeEmit, stateArg]
  · rfl

/-- Claim C8: a command refused by its state gate (play outside S_STOP,
stop outside S_PLAY, ejct outside {S_STOP, S_PLAY}, seek outside
{S_PLAY, S_STOP}) returns the player completely unchanged (state, loaded
audio and position included) and its invalid outcome is acknowledged
with WHAT. -/
theorem C8_gate_refusals (p : Player) (t : Nat) (rest : String) :
    (p.cstate ≠ PState.S_STOP →
      cmd_play p = (p, false) ∧ ackOf (cmd_play p).2 = AckCode.WHAT) ∧
    (p.cstate ≠ PState.S_PLAY →
      cmd_stop p = (p, false) ∧ ackOf (cmd_stop p).2 = AckCode.WHAT) ∧
    (p.cstate ≠ PState.S_STOP → p.cstate ≠ PState.S_PLAY →
      cmd_ejct p = (p, false) ∧ ackOf (cmd_ejct p).2 = AckCode.WHAT) ∧
    (p.cstate ≠ PState.S_PLAY → p.cstate ≠ PState.S_STOP →
      cmd_seek p t rest = (p, false) ∧
        ackOf (cmd_seek p t rest).2 = AckCode.WHAT) := by
  rcases p with ⟨st, au, pt⟩
  cases st <;>
    simp [cmd_play, cmd_stop, cmd_ejct, cmd_seek, gate_state, ackOf]

/-- Witness for C8_gate_refusals: play refused from the Ejected state
leaves the freshly constructed player unchanged and answers WHAT. -/
theorem C8_gate_refusals_witness :
    cmd_play initPlayer = (initPlayer, false) ∧
    ackOf (cmd_play initPlayer).2 = AckCode.WHAT :=
  (C8_gate_refusals initPlayer 0 "").1 (by decide)

/-- The implicit invariant of claim C10: in states S_STOP and S_PLAY the
player holds a non-null audio object. -/
def audioLoadedInv (p : Player) : Prop :=
  p.cstate = PState.S_STOP ∨ p.cstate = PState.S_PLAY → p.au.isSome = true

instance (p : Player) : Decidable (audioLoadedInv p) := by
  unfold audioLoadedInv
  infer_instance

lemma audioLoadedInv_ejct (p : Player) (h : audioLoadedInv p) :
    audioLoadedInv (cmd_ejct p).1 := by
  rcases p with ⟨st, au, pt⟩
  cases st <;> simp [cmd_ejct, gate_state, audioLoadedInv] at h ⊢

lemma audioLoadedInv_play (p : Player) (h : audioLoadedInv p) :
    audioLoadedInv (cmd_play p).1 := by
  rcases p with ⟨st, au, pt⟩
  cases st <;> cases au <;>
    simp [cmd_play, gate_state, audioLoadedInv, audioStart] at h ⊢

lemma audioLoadedInv_stop (p : Player) (h : audioLoadedInv p) :
    audioLoadedInv (cmd_stop p).1 := by
  rcases p with ⟨st, au, pt⟩
  cases st <;> cases au <;>
    simp [cmd_stop, gate_state, audioLoadedInv, audioStop] at h ⊢

lemma audioLoadedInv_quit (p : Player) (h : audioLoadedInv p) :
    audioLoadedInv (cmd_quit p).1 := by
  rcases p with ⟨st, au, pt⟩
  cases st <;> simp [cmd_quit, cmd_ejct, gate_state, audioLoadedInv]

lemma audioLoadedInv_load (p : Player) (loaded : Option AudioObj)
    (h : audioLoadedInv p) : audioLoadedInv (cmd_load p loaded).1 := by
  cases loaded with
  | some a => simp [cmd_load, audioLoadedInv]
  | none =>
      have := audioLoadedInv_ejct p h
      simpa [cmd_load] using this

lemma audioLoadedInv_seek (p : Player) (t : Nat) (rest : String)
    (h : audioLoadedInv p) : audioLoadedInv (cmd_seek p t rest).1 := by
  rcases p with ⟨st, au, pt⟩
  cases st <;> cases au <;>
    simp [cmd_seek, cmd_stop, cmd_play, gate_state, audioLoadedInv,
      audioStop, audioStart, audioSeekUsec] at h ⊢

/-- Claim C10: the freshly constructed player satisfies the loaded-audio
invariant (S_STOP or S_PLAY implies a non-null audio), and every command
dispatched through the PLAYER_CMDS table preserves it, whatever the verb,
the load outcome, and the seek argument; handlers that dereference the
audio in those states therefore never act on a null pointer. -/
theorem C10_loaded_invariant :
    audioLoadedInv initPlayer ∧
    ∀ (p : Player) (verb : String) (loaded : Option AudioObj)
      (arg : Nat × String),
      audioLoadedInv p → audioLoadedInv (execCmd p verb loaded arg).1 := by
  constructor
  · decide
  · intro p verb loaded arg h
    unfold execCmd
    split_ifs
    · exact audioLoadedInv_play p h
    · exact audioLoadedInv_stop p h
    · exact audioLoadedInv_ejct p h
    · exact audioLoadedInv_quit p h
    · exact audioLoadedInv_load p loaded h
    · exact audioLoadedInv_load p loaded h
    · exact h

/-- Witness for C10_loaded_invariant: a play command on a stopped player
with loaded audio preserves the invariant. -/
theorem C10_loaded_invariant_witness :
    audioLoadedInv
      (execCmd { cstate := PState.S_STOP,
                 au := some { playing := false, posUsec := 0 }, ptime := 0 }
        "play" none (0, "")).1 :=
  C10_loaded_invariant.2 _ "play" none (0, "") (by decide)

/-- Claim C3: for every callback invocation, the output buffer has
exactly nbytes bytes and is zero past the data read; when the sink is
not PLAYING nothing else happens; when PLAYING with an empty ring the
state flips to AT_END exactly when source_out is set and the position is
untouched; otherwise min(nbytes / bytes_per_sample, read capacity)
samples leave the ring into the buffer and the position grows by exactly
the samples read. -/
theorem C3_callback_semantics (s : SinkState) (nbytes : Nat)
    (_hbps : 0 < s.bps) :
    (sdlCallback s nbytes).2.length = nbytes ∧
    (s.state ≠ AState.PLAYING →
      sdlCallback s nbytes = (s, List.replicate nbytes 0)) ∧
    (s.state = AState.PLAYING → readCapacity s = 0 →
      (sdlCallback s nbytes).2 = List.replicate nbytes 0 ∧
      (sdlCallback s nbytes).1.position = s.position ∧
      ((sdlCallback s nbytes).1.state = AState.AT_END ↔ s.sourceOut = true) ∧
      (s.sourceOut = false → sdlCallback s nbytes = (s, List.replicate nbytes 0))) ∧
    (s.state = AState.PLAYING → readCapacity s ≠ 0 →
      (sdlCallback s nbytes).2
        = s.ring.take (min (nbytes / s.bps) (readCapacity s) * s.bps) ++
          List.replicate
            (nbytes - min (nbytes / s.bps) (readCapacity s) * s.bps) 0 ∧
      (sdlCallback s nbytes).1.position
        = s.position + min (nbytes / s.bps) (readCapacity s) ∧
      (sdlCallback s nbytes).1.ring
        = s.ring.drop (min (nbytes / s.bps) (readCapacity s) * s.bps) ∧
      (sdlCallback s nbytes).1.state = s.state ∧
      (sdlCallback s nbytes).1.sourceOut = s.sourceOut) := by
  by_cases hst : s.state = AState.PLAYING
  · by_cases hav : readCapacity s = 0
    · have hdef : sdlCallback s nbytes
          = (if s.sourceOut then { s with state := AState.AT_END } else s,
             List.replicate nbytes 0) := by
        simp [sdlCallback, hst, hav]
      refine ⟨?_, ?_, ?_, ?_⟩
      · rw [hdef]
        simp
      · intro h
        exact absurd hst h
      · intro _ _
        cases hso : s.sourceOut <;> rw [hdef] <;> simp [hso, hst]
      · intro _ h
        exact absurd hav h
    · have h1 : min (nbytes / s.bps) (readCapacity s) * s.bps
          ≤ s.ring.length := by
        calc min (nbytes / s.bps) (readCapacity s) * s.bps
            ≤ readCapacity s * s.bps :=
              Nat.mul_le_mul_right _ (min_le_right _ _)
          _ ≤ s.ring.length := Nat.div_mul_le_self _ _
      have h2 : min (nbytes / s.bps) (readCapacity s) * s.bps ≤ nbytes := by
        calc min (nbytes / s.bps) (readCapacity s) * s.bps
            ≤ (nbytes / s.bps) * s.bps :=
              Nat.mul_le_mul_right _ (min_le_left _ _)
          _ ≤ nbytes := Nat.div_mul_le_self _ _
      have hdef : sdlCallback s nbytes
          = ({ s with
                ring := s.ring.drop
                  (min (nbytes / s.bps) (readCapacity s) * s.bps),
                position := s.position
                  + min (nbytes / s.bps) (readCapacity s) },
             s.ring.take (min (nbytes / s.bps) (readCapacity s) * s.bps) ++
               List.replicate
                 (nbytes - min (nbytes / s.bps) (readCapacity s) * s.bps)
                 0) := by
        simp [sdlCallback, hst, hav]
      refine ⟨?_, ?_, ?_, ?_⟩
      · rw [hdef]
        simp only [List.length_append, List.length_take,
          List.length_replicate]
        omega
      · intro h
        exact absurd hst h
      · intro _ h
        exact absurd h hav
      · intro _ _
        rw [hdef]
        simp
  · have hdef : sdlCallback s nbytes = (s, List.replicate nbytes 0) := by
      simp [sdlCallback, hst]
    refine ⟨?_, ?_, ?_, ?_⟩
    · rw [hdef]
      simp
    · intro _
      exact hdef
    · intro h
      exact absurd h hst
    · intro h
      exact absurd h hst

/-- Witness for C3_callback_semantics: a playing sink with two pending
four-byte samples serving a six-byte request. -/
theorem C3_callback_semantics_witness :
    (sdlCallback
      { state := AState.PLAYING, sourceOut := false, position := 10,
        ring := [1, 2, 3, 4, 5, 6, 7, 8], bps := 4 } 6).2.length = 6 :=
  (C3_callback_semantics
    { state := AState.PLAYING, sourceOut := false, position := 10,
      ring := [1, 2, 3, 4, 5, 6, 7, 8], bps := 4 } 6 (by decide)).1

/-- The between-ticks frame invariant of claim C5: the in-flight frame
is empty, or its cursor lies strictly inside it and its length is a
positive multiple of bytes_per_sample. -/
def frameInv (p : PipeState) : Prop :=
  p.frame = [] ∨
    (p.cursor < p.frame.length ∧ 0 < p.frame.length ∧
      p.sink.bps ∣ p.frame.length)

lemma sinkTransfer_bps (s : SinkState) (bytes : List Nat) :
    (sinkTransfer s bytes).1.bps = s.bps := by
  simp only [sinkTransfer]
  split_ifs <;> rfl

lemma sinkTransfer_adv_le (s : SinkState) (bytes : List Nat) :
    (sinkTransfer s bytes).2 ≤ bytes.length := by
  simp only [sinkTransfer]
  split_ifs
  · simp
  · simp
  · exact le_trans (Nat.mul_le_mul_right _ (min_le_left _ _))
      (Nat.div_mul_le_self _ _)

lemma frameInv_transferFrame (p : PipeState)
    (hcur : p.cursor < p.frame.length)
    (hlen : p.sink.bps ∣ p.frame.length) :
    frameInv (TransferFrame p) := by
  have hw := sinkTransfer_adv_le p.sink (p.frame.drop p.cursor)
  have hbps := sinkTransfer_bps p.sink (p.frame.drop p.cursor)
  rw [List.length_drop] at hw
  unfold TransferFrame
  by_cases hfin : FrameFinished
      { p with sink := (sinkTransfer p.sink (p.frame.drop p.cursor)).1,
               cursor := p.cursor + (sinkTransfer p.sink (p.frame.drop p.cursor)).2 }
  · rw [if_pos hfin]
    left
    rfl
  · rw [if_neg hfin]
    right
    unfold FrameFinished at hfin
    rw [not_le] at hfin
    dsimp only at hfin ⊢
    exact ⟨hfin, lt_of_le_of_lt (Nat.zero_le _) hcur, hbps ▸ hlen⟩

lemma pipeUpdate_unfinished (p : PipeState) (d : DecodeResult)
    (h : ¬ FrameFinished p) :
    (pipeUpdate p d).1 = TransferFrame p := by
  simp [pipeUpdate, DecodeIfFrameEmpty, h]

lemma pipeUpdate_finished_eof (p : PipeState) (d : DecodeResult)
    (h : FrameFinished p) (he : d.1 = DecodeState.END_OF_FILE) :
    (pipeUpdate p d).1 =
      if FrameFinished
          { p with frame := d.2, cursor := 0, sink := sinkSourceOut p.sink }
      then { p with frame := d.2, cursor := 0, sink := sinkSourceOut p.sink }
      else TransferFrame
          { p with frame := d.2, cursor := 0, sink := sinkSourceOut p.sink } := by
  simp [pipeUpdate, DecodeIfFrameEmpty, h, he, ite_not]

lemma pipeUpdate_finished_more (p : PipeState) (d : DecodeResult)
    (h : FrameFinished p) (he : d.1 ≠ DecodeState.END_OF_FILE) :
    (pipeUpdate p d).1 =
      if FrameFinished { p with frame := d.2, cursor := 0 }
      then { p with frame := d.2, cursor := 0 }
      else TransferFrame { p with frame := d.2, cursor := 0 } := by
  simp [pipeUpdate, DecodeIfFrameEmpty, h, he, ite_not]

/-- Claim C5: one update tick preserves the frame invariant: afterwards
the in-flight frame is either empty or retained with its cursor strictly
inside a frame whose length is a positive multiple of bytes_per_sample;
a finished frame is never retained. -/
theorem C5_update_frame_invariant (p : PipeState) (d : DecodeResult)
    (hinv : frameInv p) (hd : p.sink.bps ∣ d.2.length) :
    frameInv (pipeUpdate p d).1 := by
  by_cases hfin : FrameFinished p
  · by_cases hmore : d.1 = DecodeState.END_OF_FILE
    · rw [pipeUpdate_finished_eof p d hfin hmore]
      cases hd2 : d.2 with
      | nil =>
          have hq : FrameFinished
              { p with frame := ([] : List Nat), cursor := 0,
                       sink := sinkSourceOut p.sink } := by
            simp [FrameFinished]
          rw [if_pos hq]
          left
          rfl
      | cons b bs =>
          rw [hd2] at hd
          have hq : ¬ FrameFinished
              { p with frame := b :: bs, cursor := 0,
                       sink := sinkSourceOut p.sink } := by
            simp [FrameFinished]
          rw [if_neg hq]
          exact frameInv_transferFrame _ (by simp)
            (by simpa [sinkSourceOut] using hd)
    · rw [pipeUpdate_finished_more p d hfin hmore]
      cases hd2 : d.2 with
      | nil =>
          have hq : FrameFinished
              { p with frame := ([] : List Nat), cursor := 0 } := by
            simp [FrameFinished]
          rw [if_pos hq]
          left
          rfl
      | cons b bs =>
          rw [hd2] at hd
          have hq : ¬ FrameFinished
              { p with frame := b :: bs, cursor := 0 } := by
            simp [FrameFinished]
          rw [if_neg hq]
          exact frameInv_transferFrame _ (by simp) hd
  · rw [pipeUpdate_unfinished p d hfin]
    rcases hinv with hnil | ⟨hc, hpos, hdvd⟩
    · exact absurd (show FrameFinished p by simp [FrameFinished, hnil]) hfin
    · exact frameInv_transferFrame p hc hdvd

/-- Witness for C5_update_frame_invariant: a tick on an empty frame with
a fresh two-sample decode result (bps 4, eight bytes). -/
theorem C5_update_frame_invariant_witness :
    frameInv (pipeUpdate
      { frame := [], cursor := 0,
        sink := { state := AState.STOPPED, sourceOut := false,
                  position := 0, ring := [], bps := 4 } }
      (DecodeState.DECODING, [1, 2, 3, 4, 5, 6, 7, 8])).1 :=
  C5_update_frame_invariant _ _ (Or.inl rfl) (by decide)

end Playd

namespace Playd

lemma lookupSec_eraseSec_ne (k j : Nat) (m : TimeMap) (h : k ≠ j) :
    lookupSec k (eraseSec j m) = lookupSec k m := by
  induction m with
  | nil => rfl
  | cons kv rest ih =>
      obtain ⟨k1, v⟩ := kv
      have hjk : j ≠ k := fun hh => h hh.symm
      by_cases h1 : k1 = j
      · have hk1 : k1 ≠ k := by
          rw [h1]
          exact hjk
        simp [eraseSec, lookupSec, h1, hk1, hjk]
      · by_cases h2 : k1 = k <;>
          simp [eraseSec, lookupSec, h1, h2, h, hjk, ih]

lemma lookupSec_mono_emitTime (e : TimeEvent) (m : TimeMap) (k v : Nat)
    (h : lookupSec k m = some v) :
    ∃ w, lookupSec k (emitTime e.id e.micros e.key m).2 = some w ∧ v ≤ w := by
  unfold emitTime
  by_cases hid : 0 < e.id
  · rw [if_pos hid]
    exact ⟨v, h, le_refl v⟩
  · rw [if_neg hid]
    cases hl : lookupSec e.key m with
    | none =>
        have hne : e.key ≠ k := by
          intro he
          rw [he, h] at hl
          cases hl
        simp only [CanAnnounceTime, hl]
        exact ⟨v, by simp [lookupSec, hne, h], le_refl v⟩
    | some last =>
        simp only [CanAnnounceTime, hl]
        by_cases hlt : last < e.micros / 1000 / 1000
        · rw [if_pos hlt]
          by_cases hke : e.key = k
          · subst hke
            rw [h] at hl
            injection hl with hv
            refine ⟨e.micros / 1000 / 1000, by simp [lookupSec], ?_⟩
            omega
          · refine ⟨v, ?_, le_refl v⟩
            have : lookupSec k (eraseSec e.key m) = lookupSec k m :=
              lookupSec_eraseSec_ne k e.key m (fun hh => hke hh.symm)
            simp [lookupSec, hke, this, h]
        · rw [if_neg hlt]
          exact ⟨v, h, le_refl v⟩

lemma lookupSec_mono_processEvents (evs : List TimeEvent) (m : TimeMap)
    (k v : Nat) (h : lookupSec k m = some v) :
    ∃ w, lookupSec k (processEvents m evs) = some w ∧ v ≤ w := by
  induction evs generalizing m v with
  | nil => exact ⟨v, h, le_refl v⟩
  | cons e rest ih =>
      obtain ⟨w1, hw1, hvw1⟩ := lookupSec_mono_emitTime e m k v h
      obtain ⟨w2, hw2, hw12⟩ := ih _ _ hw1
      refine ⟨w2, ?_, le_trans hvw1 hw12⟩
      simpa [processEvents] using hw2

lemma emitTime_broadcast_not_sent (micros k : Nat) (m : TimeMap) (w : Nat)
    (hw : lookupSec k m = some w) (hge : ¬ w < micros / 1000 / 1000) :
    (emitTime 0 micros k m).1 = false := by
  unfold emitTime
  rw [if_neg (by omega)]
  simp only [CanAnnounceTime, hw]
  rw [if_neg hge]

lemma emitTime_records (micros k : Nat) (m : TimeMap)
    (h : (emitTime 0 micros k m).1 = true) :
    lookupSec k (emitTime 0 micros k m).2 = some (micros / 1000 / 1000) := by
  unfold emitTime at h ⊢
  rw [if_neg (by omega)] at h ⊢
  cases hl : lookupSec k m with
  | none => simp [CanAnnounceTime, hl, lookupSec]
  | some last =>
      by_cases hlt : last < micros / 1000 / 1000
      · simp [CanAnnounceTime, hl, hlt, lookupSec]
      · simp [CanAnnounceTime, hl, hlt] at h

/-- Claim C6: a TIME unicast (id > 0) is always sent and leaves the
throttle map untouched; a TIME broadcast (id = 0) is sent iff the
listener has no recorded whole-second or its record is strictly below
the current whole-second; a sent broadcast records the listener's
current whole-second; and after a broadcast for some whole-second, no
later broadcast to that listener is sent for the same (or any earlier)
whole-second, whatever TIME emissions happen in between, until a seek
clears the map. -/
theorem C6_time_emission (id micros k : Nat) (m : TimeMap) :
    (0 < id → emitTime id micros k m = (true, m)) ∧
    ((emitTime 0 micros k m).1 = true ↔
      (lookupSec k m = none ∨
        ∃ last, lookupSec k m = some last ∧ last < micros / 1000 / 1000)) ∧
    ((emitTime 0 micros k m).1 = true →
      lookupSec k (emitTime 0 micros k m).2 = some (micros / 1000 / 1000)) ∧
    (∀ (evs : List TimeEvent) (micros2 : Nat),
      (emitTime 0 micros k m).1 = true →
      micros2 / 1000 / 1000 ≤ micros / 1000 / 1000 →
      (emitTime 0 micros2 k (processEvents (emitTime 0 micros k m).2 evs)).1
        = false) := by
  refine ⟨?_, ?_, emitTime_records micros k m, ?_⟩
  · intro h
    unfold emitTime
    rw [if_pos h]
  · unfold emitTime
    rw [if_neg (by omega)]
    cases hl : lookupSec k m with
    | none => simp [CanAnnounceTime, hl]
    | some last =>
        by_cases hlt : last < micros / 1000 / 1000 <;>
          simp [CanAnnounceTime, hl, hlt]
  · intro evs micros2 hsent hle
    have h1 := emitTime_records micros k m hsent
    obtain ⟨w, hw, hsw⟩ :=
      lookupSec_mono_processEvents evs _ k _ h1
    exact emitTime_broadcast_not_sent micros2 k _ w hw (by omega)

/-- Witness for C6_time_emission: a unicast is sent against an empty
map, and a broadcast at second 2 is refused when second 2 was already
broadcast, even with an intervening same-second broadcast attempt. -/
theorem C6_time_emission_witness :
    emitTime 3 500 7 [] = (true, []) ∧
    (emitTime 0 2500000 7 (processEvents (emitTime 0 2500000 7 []).2
        [{ id := 0, micros := 2700000, key := 7 }])).1 = false := by
  have hu := C6_time_emission 3 500 7 []
  have hb := C6_time_emission 0 2500000 7 []
  exact ⟨hu.1 (by decide),
    hb.2.2.2 [{ id := 0, micros := 2700000, key := 7 }] 2500000
      (by decide) (by decide)⟩

end Playd
